import Mathlib

/-!
Verification development for the short-link lifecycle engine of the
Shorten-URLs backend.  The definitions below are a shallow embedding of
src/controllers/link.controller.ts and src/models/Link.ts:

* timestamps are milliseconds since the epoch, modelled as Int;
* the Mongo collection is a list of LinkRec values, queried in order
  (findOne returns the first match, as for an unindexed natural scan);
* randomness (Math.random based code generation) is an explicit stream of
  candidate codes; the unbounded while-true retry loop is modelled by
  searching that stream, with none denoting a run that did not terminate
  within the supplied randomness;
* the WHATWG URL parser invoked by new URL(u) is modelled for the http and
  https fragment actually reachable from normalizeUrl (the call sites only
  ever pass strings that begin with http:// or https://, case-insensitively):
  authority without userinfo, hosts over alphanumerics and . - _ % ~,
  numeric ports with default-port elision, fragment and query splitting.
  Percent-encoding normalization, IDNA and dot-segment resolution are
  outside the modelled fragment, as are URLs whose parse would need them;
* the JavaScript RegExp built by the duplicate lookup,
  new RegExp("^" + normalizedUrl + "$", "i"), is modelled for patterns made
  of literal characters, the dot wildcard and the question-mark optional
  quantifier, which covers every URL shape the claims exercise; patterns
  using other metacharacters are outside the modelled fragment.
-/

/-- ASCII lower-casing of a character, the fragment of the JavaScript
toLowerCase and of the regex i flag that the inputs here exercise. -/
def asciiToLower (c : Char) : Char :=
  if 'A' ≤ c ∧ c ≤ 'Z' then Char.ofNat (c.toNat + 32) else c

/-- Lower-case a string character by character. -/
def lowerStr (s : String) : String :=
  ⟨s.data.map asciiToLower⟩

/-- Whitespace recognised by String.prototype.trim on the inputs used here. -/
def isWspChar (c : Char) : Bool :=
  c == ' ' || c == '\t' || c == '\n' || c == '\r'

/-- Trim on character lists. -/
def trimChars (cs : List Char) : List Char :=
  ((cs.dropWhile isWspChar).reverse.dropWhile isWspChar).reverse

/-- Embedding of (raw or empty).trim() from normalizeUrl. -/
def trimStr (s : String) : String :=
  ⟨trimChars s.data⟩

/-- Embedding of the test of the regular expression caret https then an
optional s then colon slash slash, with the i flag, used by normalizeUrl. -/
def startsWithHttpScheme (s : String) : Bool :=
  let l := s.data.map asciiToLower
  l.take 7 == "http://".data || l.take 8 == "https://".data

/-- The scheme-defaulting step of normalizeUrl: if the input does not begin
with http:// or https:// (case-insensitively), https:// is put in front. -/
def schemeDefault (s : String) : String :=
  if startsWithHttpScheme s then s else "https://" ++ s

/-- Components of a parsed http or https URL as produced by new URL. -/
structure URLRec where
  scheme : String
  host : String
  port : Option Nat
  path : String
  query : Option String
  fragment : Option String
deriving DecidableEq, Repr

/-- Characters admitted in a host by the modelled WHATWG fragment. -/
def hostCharOk (c : Char) : Bool :=
  c.isAlphanum || c == '.' || c == '-' || c == '_' || c == '%' || c == '~'

/-- Numeric value of a digit list. -/
def digitsVal (cs : List Char) : Nat :=
  cs.foldl (fun a c => a * 10 + (c.toNat - 48)) 0

/-- Port handling of the WHATWG parser: empty port is dropped, a numeric
port is bounded by 65535 and the scheme default ports are elided; the outer
none is a parse failure. -/
def parsePort (scheme : String) (portPart : List Char) : Option (Option Nat) :=
  match portPart with
  | [] => some none
  | ':' :: ps =>
    if ps.isEmpty then some none
    else if ps.all Char.isDigit then
      let n := digitsVal ps
      if 65535 < n then none
      else if (scheme == "http" && n == 80) || (scheme == "https" && n == 443) then
        some none
      else some (some n)
    else none
  | _ => none

/-- Split the part after the authority into query and fragment. -/
def parseQueryFrag (cs : List Char) : Option String × Option String :=
  match cs with
  | '?' :: qs =>
    (some ⟨(qs.span (fun c => !(c == '#'))).1⟩,
      match (qs.span (fun c => !(c == '#'))).2 with
      | '#' :: fs => (some ⟨fs⟩ : Option String)
      | _ => none)
  | '#' :: fs => (none, some ⟨fs⟩)
  | _ => (none, none)

/-- The authority of the post-scheme remainder: everything up to the first
slash, question mark or hash. -/
def authPart (cs : List Char) : List Char :=
  (cs.span (fun c => !(c == '/' || c == '?' || c == '#'))).1

/-- The remainder after the authority. -/
def restPart (cs : List Char) : List Char :=
  (cs.span (fun c => !(c == '/' || c == '?' || c == '#'))).2

/-- The host portion of the authority, before any colon. -/
def hostPart (cs : List Char) : List Char :=
  ((authPart cs).span (fun c => !(c == ':'))).1

/-- The port portion of the authority, from the colon on. -/
def portPart (cs : List Char) : List Char :=
  ((authPart cs).span (fun c => !(c == ':'))).2

/-- The path, up to the first question mark or hash. -/
def pathPart (cs : List Char) : List Char :=
  ((restPart cs).span (fun c => !(c == '?' || c == '#'))).1

/-- The query and fragment remainder after the path. -/
def tailPart (cs : List Char) : List Char :=
  ((restPart cs).span (fun c => !(c == '?' || c == '#'))).2

/-- Parse everything after the scheme separator of an http or https URL. -/
def parseAfterScheme (scheme : String) (cs : List Char) : Option URLRec :=
  if (authPart cs).contains '@' then none
  else if (hostPart cs).isEmpty then none
  else if !(hostPart cs).all hostCharOk then none
  else
    match parsePort scheme (portPart cs) with
    | none => none
    | some port =>
      some { scheme := scheme
             host := ⟨(hostPart cs).map asciiToLower⟩
             port := port
             path := ⟨pathPart cs⟩
             query := (parseQueryFrag (tailPart cs)).1
             fragment := (parseQueryFrag (tailPart cs)).2 }

/-- Embedding of new URL(u) for the http and https fragment reachable from
normalizeUrl; none models the constructor throwing. -/
def jsURLParse (s : String) : Option URLRec :=
  let l := s.data.map asciiToLower
  if l.take 8 == "https://".data then parseAfterScheme "https" (s.data.drop 8)
  else if l.take 7 == "http://".data then parseAfterScheme "http" (s.data.drop 7)
  else none

/-- Serialization of a parsed URL, as url.toString() renders it: lower-cased
scheme and host, default port elided, empty path printed as a single slash,
query kept verbatim, fragment appended when present. -/
def serializeURL (u : URLRec) : String :=
  u.scheme ++ "://" ++ u.host ++
    (match u.port with | some n => ":" ++ Nat.repr n | none => "") ++
    (if u.path == "" then "/" else u.path) ++
    (match u.query with | some q => "?" ++ q | none => "") ++
    (match u.fragment with | some f => "#" ++ f | none => "")

/-- Embedding of normalizeUrl from link.controller.ts lines 20 to 30: trim,
default the scheme to https, then attempt new URL; on success clear the hash
and serialize, on a parse failure return the defaulted string unchanged. -/
def normalizeUrl (raw : String) : String :=
  let u := schemeDefault (trimStr raw)
  match jsURLParse u with
  | some url => serializeURL { url with fragment := none }
  | none => u

/-- Tokens of the modelled regex fragment: a literal character or the dot
wildcard, each optionally followed by the question-mark quantifier. -/
inductive RTok where
  | lit (c : Char) (opt : Bool)
  | any (opt : Bool)
deriving DecidableEq, Repr

/-- Whether a token can consume the given character (case-insensitively,
matching the i flag). -/
def tokMatches (t : RTok) (d : Char) : Bool :=
  match t with
  | .lit c _ => asciiToLower c == asciiToLower d
  | .any _ => true

/-- Whether a token carries the optional quantifier. -/
def tokOpt (t : RTok) : Bool :=
  match t with
  | .lit _ o => o
  | .any o => o

/-- Regex metacharacters outside the modelled fragment; a pattern containing
one of them at token position is not modelled. -/
def isRegexSpecial (c : Char) : Bool :=
  c == '?' || c == '*' || c == '+' || c == '(' || c == ')' ||
  c == '[' || c == ']' || c == '{' || c == '}' || c == '|' ||
  c == '\\' || c == '^' || c == '$'

/-- Build one token from an atom character and its optional flag. -/
def mkTok (c : Char) (opt : Bool) : RTok :=
  if c == '.' then RTok.any opt else RTok.lit c opt

/-- Tokenize the inner pattern of the anchored regex the duplicate lookup
builds; none marks a pattern outside the modelled fragment. -/
def tokenize : List Char → Option (List RTok)
  | [] => some []
  | c :: rest =>
    if isRegexSpecial c then none
    else
      match rest with
      | [] => some [mkTok c false]
      | q :: rest2 =>
        if q == '?' then (tokenize rest2).map (List.cons (mkTok c true))
        else (tokenize (q :: rest2)).map (List.cons (mkTok c false))

/-- Anchored matching of a token list against a subject, with backtracking
over optional tokens. -/
def matchToks : List RTok → List Char → Bool
  | [], [] => true
  | [], _ :: _ => false
  | t :: ts, [] => tokOpt t && matchToks ts []
  | t :: ts, c :: cs =>
    (tokMatches t c && matchToks ts cs) || (tokOpt t && matchToks ts (c :: cs))

/-- Embedding of the duplicate lookup test in createShortLink line 158: the
stored originalUrl is matched against new RegExp of caret, the unescaped
normalized URL, dollar, with the i flag.  Patterns outside the modelled
fragment are mapped to false; no claim depends on them. -/
def dedupMatch (pattern subject : String) : Bool :=
  match tokenize pattern.data with
  | some ts => matchToks ts subject.data
  | none => false

/-- Characters that the regex treats as plain literals within the modelled
fragment: not special and not one of the dot and question-mark metacharacters. -/
def plainChar (c : Char) : Bool :=
  !(isRegexSpecial c) && !(c == '.') && !(c == '?')

/-- A stored link record, after src/models/Link.ts; title and description
pass through the controller unexamined and are omitted. -/
structure LinkRec where
  originalUrl : String
  shortCode : String
  customAlias : Option String
  clicks : Nat
  createdAt : Int
  createdBy : String
  expiresAt : Option Int
  isActive : Bool
deriving DecidableEq, Repr

/-- FIVE_DAYS_MS from link.controller.ts line 9. -/
def FIVE_DAYS_MS : Int := 5 * 24 * 60 * 60 * 1000

/-- The one-year default expiry of the Link schema, models/Link.ts line 47. -/
def YEAR_MS : Int := 365 * 24 * 60 * 60 * 1000

/-- The sixty-minute quota window of enforceCreateQuota, line 107. -/
def QUOTA_WINDOW_MS : Int := 60 * 60 * 1000

/-- Embedding of Link.exists with a shortCode filter (line 37). -/
def existsCode (st : List LinkRec) (c : String) : Bool :=
  st.any (fun r => r.shortCode == c)

/-- Embedding of the countDocuments query of enforceCreateQuota lines 107 to
111: records of this creator whose createdAt is strictly newer than one hour
before now. -/
def quotaCount (st : List LinkRec) (uid : String) (now : Int) : Nat :=
  (st.filter (fun r => r.createdBy == uid && decide (now - QUOTA_WINDOW_MS < r.createdAt))).length

/-- Embedding of isReserved, lines 43 to 46. -/
def isReserved (a : String) : Bool :=
  ["api", "r", "redirect", "admin", "login", "signup", "health"].contains (lowerStr a)

/-- The customAlias regex of createLinkSchema line 51: three to thirty
characters over letters, digits, hyphen and underscore. -/
def aliasFormatOk (a : String) : Bool :=
  decide (3 ≤ a.data.length) && decide (a.data.length ≤ 30) &&
    a.data.all (fun c => c.isAlphanum || c == '-' || c == '_')

/-- The request body fields the lifecycle logic reads. -/
structure CreateReq where
  originalUrl : String
  customAlias : Option String
deriving DecidableEq, Repr

/-- Embedding of createLinkSchema lines 49 to 54: originalUrl passes when it
is a parseable URL or is at least four characters long (the zod url check is
modelled by the URL parser on its http fragment); a supplied alias must match
the alias regex. -/
def zodOk (req : CreateReq) : Bool :=
  (decide (4 ≤ req.originalUrl.data.length) || (jsURLParse req.originalUrl).isSome) &&
    (match req.customAlias with
     | some a => aliasFormatOk a
     | none => true)

/-- TLD requirement of the validator.isURL options in models/Link.ts lines
12 to 19: the host splits on dots into at least two nonempty labels and the
last label is alphabetic of length at least two. -/
def hostHasTld (h : String) : Bool :=
  let parts := h.data.splitOn '.'
  decide (2 ≤ parts.length) && parts.all (fun p => !p.isEmpty) &&
    (parts.getLastD []).all Char.isAlpha && decide (2 ≤ (parts.getLastD []).length)

/-- Modelled approximation of the originalUrl validator of the Link schema
(validator.isURL with protocols http and https, require_tld and
require_protocol): the string parses as an http or https URL whose host has
a TLD. -/
def mongooseValidOriginalUrl (s : String) : Bool :=
  match jsURLParse s with
  | none => false
  | some u => hostHasTld u.host

/-- Embedding of generateUniqueShortCode lines 33 to 41: draw candidates in
order and return the first one whose code is not in the store; the source
loop is while true, so a run whose stream never yields a free code does not
terminate, which the model renders as none. -/
def generateUniqueShortCode (stream : List String) (st : List LinkRec) : Option String :=
  match stream with
  | [] => none
  | c :: rest => if existsCode st c then generateUniqueShortCode rest st else some c

/-- Number of loop iterations generateUniqueShortCode performs before
returning, when it returns within the modelled stream. -/
def genAttempts (stream : List String) (st : List LinkRec) : Option Nat :=
  match stream with
  | [] => none
  | c :: rest =>
    if existsCode st c then (genAttempts rest st).map (· + 1) else some 1

/-- Outcomes of createShortLink: badRequest is a 400 response, unauthorized
a 401, quotaExceeded the thrown 429 of enforceCreateQuota, existing the 200
already-exists response, created the 201, and serverError a thrown error
reaching next, such as a schema validation failure inside Link.create. -/
inductive CreateResult where
  | badRequest (msg : String)
  | unauthorized
  | quotaExceeded
  | existing (shortCode : String) (clicks : Nat)
  | created (shortCode : String)
  | serverError
deriving DecidableEq, Repr

/-- The tail of createShortLink after the alias checks, lines 156 to 191:
duplicate lookup by creator and case-insensitive regex on originalUrl, then
code selection, then Link.create with a five-day expiresAt. -/
def createAfterAliasChecks (customAlias : Option String) (uid : String) (now : Int)
    (stream : List String) (st : List LinkRec) (normalizedUrl : String) :
    Option (CreateResult × List LinkRec) :=
  match st.find? (fun r => r.createdBy == uid && dedupMatch normalizedUrl r.originalUrl) with
  | some ex => some (.existing ex.shortCode ex.clicks, st)
  | none =>
    let codeOpt := match customAlias with
      | some a => some a
      | none => generateUniqueShortCode stream st
    match codeOpt with
    | none => none
    | some code =>
      if mongooseValidOriginalUrl normalizedUrl then
        some (.created code,
          st ++ [{ originalUrl := normalizedUrl
                   shortCode := code
                   customAlias := customAlias
                   clicks := 0
                   createdAt := now
                   createdBy := uid
                   expiresAt := some (now + FIVE_DAYS_MS)
                   isActive := true }])
      else some (.serverError, st)

/-- Embedding of createShortLink, lines 121 to 195: schema check, auth
check, quota, then alias reservation and collision checks, then the shared
tail.  The outer none is inherited from the unbounded generation loop. -/
def createShortLink (req : CreateReq) (user : Option String) (now : Int)
    (stream : List String) (st : List LinkRec) : Option (CreateResult × List LinkRec) :=
  if zodOk req then
    match user with
    | none => some (.unauthorized, st)
    | some uid =>
      if 5 ≤ quotaCount st uid now then some (.quotaExceeded, st)
      else
        let normalizedUrl := normalizeUrl req.originalUrl
        match req.customAlias with
        | some a =>
          if isReserved a then some (.badRequest "Custom alias is reserved", st)
          else if existsCode st a then some (.badRequest "Custom alias already exists", st)
          else createAfterAliasChecks (some a) uid now stream st normalizedUrl
        | none => createAfterAliasChecks none uid now stream st normalizedUrl
  else some (.badRequest "invalid request body", st)

/-- Outcomes of redirectToOriginalUrl: notFound is the 404, expired the 410,
serverError the next path taken when the click save throws, redirect the
issued redirect to the destination. -/
inductive ResolveResult where
  | notFound
  | expired
  | serverError
  | redirect (url : String)
deriving DecidableEq, Repr

/-- The expiry comparison of line 203: expiresAt present and strictly before
now. -/
def pastExpiry (e : Option Int) (now : Int) : Bool :=
  match e with
  | some t => decide (t < now)
  | none => false

/-- Persisting the click increment of lines 207 and 208 for the looked-up
active record. -/
def bumpClicks (st : List LinkRec) (code : String) : List LinkRec :=
  st.map (fun r =>
    if r.shortCode == code && r.isActive then { r with clicks := r.clicks + 1 } else r)

/-- Embedding of redirectToOriginalUrl, lines 197 to 214: findOne on the
code with isActive true, then the expiry check, then the click increment and
save followed by the redirect; saveOk models whether link.save succeeds, and
a failed save propagates to next with the store unchanged. -/
def redirectToOriginalUrl (code : String) (now : Int) (saveOk : Bool)
    (st : List LinkRec) : ResolveResult × List LinkRec :=
  match st.find? (fun r => r.shortCode == code && r.isActive) with
  | none => (.notFound, st)
  | some link =>
    if pastExpiry link.expiresAt now then (.expired, st)
    else if saveOk then (.redirect link.originalUrl, bumpClicks st code)
    else (.serverError, st)

/-- Outcomes of deleteLink: unauthorized is the 401, notFound the 404 with
message Link not found, deleted the success acknowledgement. -/
inductive DeleteResult where
  | unauthorized
  | notFound
  | deleted
deriving DecidableEq, Repr

/-- Remove the first record satisfying the predicate, as findOneAndDelete
does. -/
def removeFirst (p : LinkRec → Bool) : List LinkRec → List LinkRec
  | [] => []
  | r :: rest => if p r then rest else r :: removeFirst p rest

/-- Embedding of deleteLink, lines 286 to 299: findOneAndDelete filtered on
both the shortCode and the requesting creator; a miss for either reason is
the same 404. -/
def deleteLink (user : Option String) (code : String) (st : List LinkRec) :
    DeleteResult × List LinkRec :=
  match user with
  | none => (.unauthorized, st)
  | some uid =>
    match st.find? (fun r => r.shortCode == code && r.createdBy == uid) with
    | none => (.notFound, st)
    | some _ => (.deleted, removeFirst (fun r => r.shortCode == code && r.createdBy == uid) st)

/-- The unique index on shortCode of the Link schema, as a store invariant. -/
def uniqueCodes (st : List LinkRec) : Prop :=
  st.Pairwise (fun a b => a.shortCode ≠ b.shortCode)

/-! ## Concrete fixtures for counterexamples and witnesses -/

/-- A stored link of creator u1 whose destination URL carries a query
string. -/
def recQuery : LinkRec :=
  { originalUrl := "https://example.com/a?b=1", shortCode := "abc123",
    customAlias := none, clicks := 0, createdAt := 0, createdBy := "u1",
    expiresAt := some 432000000, isActive := true }

/-- The second record the controller persists when the duplicate lookup
misses on the query-string URL. -/
def recQueryDup : LinkRec :=
  { originalUrl := "https://example.com/a?b=1", shortCode := "zzz999",
    customAlias := none, clicks := 0, createdAt := 1000, createdBy := "u1",
    expiresAt := some 432001000, isActive := true }

/-- A stored link of creator u1 whose path contains an upper-case letter. -/
def recUpperPath : LinkRec :=
  { originalUrl := "https://example.com/A", shortCode := "c1",
    customAlias := none, clicks := 0, createdAt := 0, createdBy := "u1",
    expiresAt := some 432000000, isActive := true }

/-- The record persisted when the generator stream yields the reserved word
health on an empty store. -/
def recHealth : LinkRec :=
  { originalUrl := "https://example.com/x", shortCode := "health",
    customAlias := none, clicks := 0, createdAt := 0, createdBy := "u1",
    expiresAt := some 432000000, isActive := true }

/-- An active, not yet expired link used by the resolution fixtures. -/
def recLive : LinkRec :=
  { originalUrl := "https://example.com/x", shortCode := "abc",
    customAlias := none, clicks := 0, createdAt := 0, createdBy := "u1",
    expiresAt := some 100, isActive := true }

/-- An active link owned by alice, used by the deletion fixtures. -/
def recAlice : LinkRec :=
  { originalUrl := "https://example.com/x", shortCode := "abc",
    customAlias := none, clicks := 0, createdAt := 0, createdBy := "alice",
    expiresAt := none, isActive := true }

/-- A record occupying the code aa, used by the generator fixtures. -/
def recTaken : LinkRec :=
  { originalUrl := "https://example.com/x", shortCode := "aa",
    customAlias := none, clicks := 0, createdAt := 0, createdBy := "u1",
    expiresAt := none, isActive := true }

/-- Five records created by u1 inside the quota window, the fixture for the
quota witness. -/
def st5Fix : List LinkRec :=
  [{ originalUrl := "https://example.com/x", shortCode := "c0", customAlias := none,
     clicks := 0, createdAt := 0, createdBy := "u1", expiresAt := none, isActive := true },
   { originalUrl := "https://example.com/x", shortCode := "c1", customAlias := none,
     clicks := 0, createdAt := 1000, createdBy := "u1", expiresAt := none, isActive := true },
   { originalUrl := "https://example.com/x", shortCode := "c2", customAlias := none,
     clicks := 0, createdAt := 2000, createdBy := "u1", expiresAt := none, isActive := true },
   { originalUrl := "https://example.com/x", shortCode := "c3", customAlias := none,
     clicks := 0, createdAt := 3000, createdBy := "u1", expiresAt := none, isActive := true },
   { originalUrl := "https://example.com/x", shortCode := "c4", customAlias := none,
     clicks := 0, createdAt := 4000, createdBy := "u1", expiresAt := none, isActive := true }]

/-- The record persisted by the create witness: code abc123 at time zero. -/
def recC10 : LinkRec :=
  { originalUrl := "https://example.com/x", shortCode := "abc123", customAlias := none,
    clicks := 0, createdAt := 0, createdBy := "u1", expiresAt := some 432000000,
    isActive := true }

/-- The parse of the scheme-defaulted trimmed witness input for the
normalization theorem. -/
def urlFixC5 : URLRec :=
  { scheme := "https", host := "example.com", port := none, path := "/Path",
    query := none, fragment := some "frag" }

/-! ## Helper lemmas -/

/-- In a store with pairwise distinct codes, the lookup of redirectToOriginalUrl
for the code of a member record returns that record exactly when it is active. -/
theorem find_active_of_uniqueCodes (st : List LinkRec) (rec : LinkRec)
    (hu : uniqueCodes st) (hm : rec ∈ st) :
    st.find? (fun r => r.shortCode == rec.shortCode && r.isActive) =
      (if rec.isActive then some rec else none) := by
  induction st with
  | nil => cases hm
  | cons x xs ih =>
    rcases List.pairwise_cons.mp hu with ⟨hx, hxs⟩
    rcases List.mem_cons.mp hm with h | h
    · subst h
      by_cases ha : rec.isActive
      · simp [List.find?_cons, ha]
      · have hnone : xs.find? (fun r => r.shortCode == rec.shortCode && r.isActive) = none := by
          rw [List.find?_eq_none]
          intro r hr
          have : r.shortCode ≠ rec.shortCode := fun h => (hx r hr) h.symm
          simp [this]
        simp [List.find?_cons, ha, hnone]
    · have hneq : x.shortCode ≠ rec.shortCode := hx rec h
      have := ih hxs h
      simp [List.find?_cons, hneq, this]


/-- The tail of creation never reports a quota rejection: its outcomes are
the already-exists response, the created response, or a validation error. -/
theorem createAfterAliasChecks_ne_quota (ca : Option String) (uid : String) (now : Int)
    (stream : List String) (st : List LinkRec) (nu : String) (res : CreateResult)
    (st' : List LinkRec)
    (h : createAfterAliasChecks ca uid now stream st nu = some (res, st')) :
    res ≠ CreateResult.quotaExceeded := by
  unfold createAfterAliasChecks at h
  cases hfind : st.find? (fun r => r.createdBy == uid && dedupMatch nu r.originalUrl) with
  | some ex =>
    rw [hfind] at h
    simp only [Option.some.injEq, Prod.mk.injEq] at h
    rcases h with ⟨h1, _⟩
    subst h1
    simp
  | none =>
    rw [hfind] at h
    cases ca with
    | some a =>
      cases hv : mongooseValidOriginalUrl nu with
      | true =>
        simp only [hv] at h
        simp at h
        rcases h with ⟨h1, _⟩
        subst h1
        simp
      | false =>
        simp only [hv] at h
        simp at h
        rcases h with ⟨h1, _⟩
        subst h1
        simp
    | none =>
      cases hgen : generateUniqueShortCode stream st with
      | none =>
        simp only [hgen] at h
        simp at h
      | some code =>
        simp only [hgen] at h
        cases hv : mongooseValidOriginalUrl nu with
        | true =>
          simp only [hv] at h
          simp at h
          rcases h with ⟨h1, _⟩
          subst h1
          simp
        | false =>
          simp only [hv] at h
          simp at h
          rcases h with ⟨h1, _⟩
          subst h1
          simp

/-- When the tail of creation persists a record, the store grows by exactly
the record built at lines 175 to 184: the normalized URL, the chosen code,
creation at now and expiry five days later. -/
theorem createAfterAliasChecks_created (ca : Option String) (uid : String) (now : Int)
    (stream : List String) (st : List LinkRec) (nu : String) (code : String)
    (st' : List LinkRec)
    (h : createAfterAliasChecks ca uid now stream st nu = some (.created code, st')) :
    st' = st ++ [{ originalUrl := nu, shortCode := code, customAlias := ca, clicks := 0,
                   createdAt := now, createdBy := uid,
                   expiresAt := some (now + FIVE_DAYS_MS), isActive := true }] := by
  unfold createAfterAliasChecks at h
  cases hfind : st.find? (fun r => r.createdBy == uid && dedupMatch nu r.originalUrl) with
  | some ex =>
    rw [hfind] at h
    simp at h
  | none =>
    rw [hfind] at h
    cases ca with
    | some a =>
      cases hv : mongooseValidOriginalUrl nu with
      | true =>
        simp only [hv] at h
        simp at h
        rcases h with ⟨h1, h2⟩
        subst h1
        exact h2.symm
      | false =>
        simp only [hv] at h
        simp at h
    | none =>
      cases hgen : generateUniqueShortCode stream st with
      | none =>
        simp only [hgen] at h
        simp at h
      | some c0 =>
        simp only [hgen] at h
        cases hv : mongooseValidOriginalUrl nu with
        | true =>
          simp only [hv] at h
          simp at h
          rcases h with ⟨h1, h2⟩
          subst h1
          exact h2.symm
        | false =>
          simp only [hv] at h
          simp at h

/-- When a custom alias was supplied, the code the tail persists is that
alias (line 172, the alias wins over generation). -/
theorem createAfterAliasChecks_created_code (a : String) (uid : String) (now : Int)
    (stream : List String) (st : List LinkRec) (nu : String) (code : String)
    (st' : List LinkRec)
    (h : createAfterAliasChecks (some a) uid now stream st nu = some (.created code, st')) :
    code = a := by
  unfold createAfterAliasChecks at h
  cases hfind : st.find? (fun r => r.createdBy == uid && dedupMatch nu r.originalUrl) with
  | some ex =>
    rw [hfind] at h
    simp at h
  | none =>
    rw [hfind] at h
    cases hv : mongooseValidOriginalUrl nu with
    | true =>
      simp only [hv] at h
      simp at h
      exact h.1.symm
    | false =>
      simp only [hv] at h
      simp at h

/-- A successful parse after the scheme separator yields that scheme and a
nonempty host. -/
theorem parseAfterScheme_ok (scheme : String) (cs : List Char) (u : URLRec)
    (h : parseAfterScheme scheme cs = some u) : u.scheme = scheme ∧ u.host ≠ "" := by
  unfold parseAfterScheme at h
  by_cases hAt : ((authPart cs).contains '@') = true
  · rw [if_pos hAt] at h
    exact Option.noConfusion h
  · rw [if_neg hAt] at h
    by_cases hEmpty : ((hostPart cs).isEmpty) = true
    · rw [if_pos hEmpty] at h
      exact Option.noConfusion h
    · rw [if_neg hEmpty] at h
      by_cases hOk : (!(hostPart cs).all hostCharOk) = true
      · rw [if_pos hOk] at h
        exact Option.noConfusion h
      · rw [if_neg hOk] at h
        cases hport : parsePort scheme (portPart cs) with
        | none =>
          rw [hport] at h
          exact Option.noConfusion h
        | some port =>
          rw [hport] at h
          simp only [Option.some.injEq] at h
          subst h
          refine ⟨rfl, ?_⟩
          intro hcontra
          have hdata : (hostPart cs).map asciiToLower = ([] : List Char) :=
            congrArg String.data hcontra
          have hnil : hostPart cs = [] := List.map_eq_nil_iff.mp hdata
          apply hEmpty
          rw [hnil]
          rfl

/-- A successful URL parse yields the http or https scheme and a nonempty
host: these are the only schemes the modelled constructor admits and an
empty authority is a parse failure. -/
theorem jsURLParse_ok (s : String) (u : URLRec) (h : jsURLParse s = some u) :
    (u.scheme = "http" ∨ u.scheme = "https") ∧ u.host ≠ "" := by
  unfold jsURLParse at h
  by_cases h8 : ((s.data.map asciiToLower).take 8 == "https://".data) = true
  · rw [if_pos h8] at h
    rcases parseAfterScheme_ok _ _ _ h with ⟨h1, h2⟩
    exact ⟨Or.inr h1, h2⟩
  · rw [if_neg h8] at h
    by_cases h7 : ((s.data.map asciiToLower).take 7 == "http://".data) = true
    · rw [if_pos h7] at h
      rcases parseAfterScheme_ok _ _ _ h with ⟨h1, h2⟩
      exact ⟨Or.inl h1, h2⟩
    · rw [if_neg h7] at h
      exact Option.noConfusion h

/-- On a metacharacter-free pattern, tokenization yields one non-optional
literal token per character. -/
theorem tokenize_plain (cs : List Char) (h : cs.all plainChar = true) :
    tokenize cs = some (cs.map (fun c => RTok.lit c false)) := by
  induction cs with
  | nil => rfl
  | cons c rest ih =>
    rw [List.all_cons, Bool.and_eq_true] at h
    rcases h with ⟨hc, hrest⟩
    have hspec : isRegexSpecial c = false := by
      unfold plainChar at hc
      rcases Bool.and_eq_true _ _ |>.mp hc with ⟨h1, _⟩
      rcases Bool.and_eq_true _ _ |>.mp h1 with ⟨h2, _⟩
      simpa using h2
    have hdot : (c == '.') = false := by
      unfold plainChar at hc
      rcases Bool.and_eq_true _ _ |>.mp hc with ⟨h1, _⟩
      rcases Bool.and_eq_true _ _ |>.mp h1 with ⟨_, h3⟩
      simpa using h3
    have hmk : mkTok c false = RTok.lit c false := by
      unfold mkTok
      rw [hdot]
      rfl
    cases rest with
    | nil =>
      unfold tokenize
      rw [hspec]
      simp [hmk]
    | cons q rest2 =>
      have hq : (q == '?') = false := by
        rw [List.all_cons, Bool.and_eq_true] at hrest
        rcases hrest with ⟨hq1, _⟩
        unfold plainChar at hq1
        rcases Bool.and_eq_true _ _ |>.mp hq1 with ⟨_, h4⟩
        simpa using h4
      unfold tokenize
      rw [hspec]
      simp only [Bool.false_eq_true, if_false, hq, hmk]
      rw [ih hrest]
      rfl

/-- A sequence of non-optional literal tokens matches a subject exactly when
the two character lists agree after ASCII lower-casing. -/
theorem matchToks_lits (cs ds : List Char) :
    matchToks (cs.map (fun c => RTok.lit c false)) ds = true ↔
      cs.map asciiToLower = ds.map asciiToLower := by
  induction cs generalizing ds with
  | nil =>
    cases ds with
    | nil => simp [matchToks]
    | cons d ds' => simp [matchToks]
  | cons c cs' ih =>
    cases ds with
    | nil => simp [matchToks, tokOpt]
    | cons d ds' =>
      simp only [List.map_cons, matchToks, tokMatches, tokOpt, Bool.false_and,
        Bool.or_false, Bool.and_eq_true, beq_iff_eq, List.cons.injEq]
      rw [ih ds']

/-- C1: for every stored link, fault-free resolution returns the destination
URL iff the record is active and not past its expiry; an inactive record
yields the 404 not-found, an active record past expiresAt yields the
distinct 410 expired, and in neither failure case is a destination
returned.  The store contents are arbitrary, so the property holds whether
or not any purge sweep has already removed expired records. -/
theorem C1_resolution_requires_active_unexpired (st : List LinkRec) (now : Int)
    (rec : LinkRec) (hu : uniqueCodes st) (hm : rec ∈ st) :
    (rec.isActive = false →
      (redirectToOriginalUrl rec.shortCode now true st).1 = ResolveResult.notFound)
    ∧ (rec.isActive = true → pastExpiry rec.expiresAt now = true →
      (redirectToOriginalUrl rec.shortCode now true st).1 = ResolveResult.expired)
    ∧ (∀ u : String,
        (redirectToOriginalUrl rec.shortCode now true st).1 = ResolveResult.redirect u ↔
        rec.isActive = true ∧ pastExpiry rec.expiresAt now = false ∧ u = rec.originalUrl) := by
  have hfind := find_active_of_uniqueCodes st rec hu hm
  refine ⟨?_, ?_, ?_⟩
  · intro ha
    rw [ha] at hfind
    simp only [Bool.false_eq_true, if_false] at hfind
    simp [redirectToOriginalUrl, hfind]
  · intro ha he
    rw [ha] at hfind
    simp only [if_true] at hfind
    simp [redirectToOriginalUrl, hfind, he]
  · intro u
    by_cases ha : rec.isActive = true
    · rw [ha] at hfind
      simp only [if_true] at hfind
      by_cases he : pastExpiry rec.expiresAt now = true
      · simp [redirectToOriginalUrl, hfind, he]
      · simp only [Bool.not_eq_true] at he
        simp [redirectToOriginalUrl, hfind, he, ha, eq_comm]
    · simp only [Bool.not_eq_true] at ha
      rw [ha] at hfind
      simp only [Bool.false_eq_true, if_false] at hfind
      simp [redirectToOriginalUrl, hfind, ha]

/-- Witness for C1 at a concrete store: a single active record expired at
time 100 resolves to the 410 expired at time 200. -/
theorem C1_resolution_requires_active_unexpired_witness :
    uniqueCodes [recLive] ∧
    (redirectToOriginalUrl "abc" 200 true [recLive]).1 = ResolveResult.expired := by
  have hu : uniqueCodes [recLive] := by simp [uniqueCodes]
  refine ⟨hu, ?_⟩
  exact (C1_resolution_requires_active_unexpired [recLive] 200 recLive hu
    (by simp)).2.1 rfl (by decide)

/-- C4: with a well-formed request body, a creator whose persisted creation
count within the sixty-minute window is at least five is rejected with the
quota error and nothing is stored, while a creator below the ceiling is
never rejected for quota. -/
theorem C4_quota_window_gates_creation (st : List LinkRec) (uid : String) (now : Int)
    (req : CreateReq) (stream : List String) (hs : zodOk req = true) :
    (5 ≤ quotaCount st uid now →
      createShortLink req (some uid) now stream st = some (.quotaExceeded, st))
    ∧ (quotaCount st uid now < 5 → ∀ res st',
      createShortLink req (some uid) now stream st = some (res, st') →
      res ≠ CreateResult.quotaExceeded) := by
  constructor
  · intro hq
    simp [createShortLink, hs, hq]
  · intro hq res st' h
    have hq' : ¬ 5 ≤ quotaCount st uid now := Nat.not_le.mpr hq
    simp only [createShortLink, hs, if_true] at h
    rw [if_neg hq'] at h
    cases hca : req.customAlias with
    | none =>
      rw [hca] at h
      exact createAfterAliasChecks_ne_quota _ _ _ _ _ _ _ _ h
    | some a =>
      rw [hca] at h
      dsimp only at h
      by_cases hres : isReserved a = true
      · rw [if_pos hres] at h
        simp only [Option.some.injEq, Prod.mk.injEq] at h
        rcases h with ⟨h1, _⟩
        subst h1
        simp
      · rw [if_neg hres] at h
        by_cases hex : existsCode st a = true
        · rw [if_pos hex] at h
          simp only [Option.some.injEq, Prod.mk.injEq] at h
          rcases h with ⟨h1, _⟩
          subst h1
          simp
        · rw [if_neg hex] at h
          exact createAfterAliasChecks_ne_quota _ _ _ _ _ _ _ _ h

/-- Witness for C4: five records created by u1 inside the window make the
sixth attempt fail with the quota error. -/
theorem C4_quota_window_gates_creation_witness :
    zodOk { originalUrl := "https://example.com/y", customAlias := none } = true ∧
    createShortLink { originalUrl := "https://example.com/y", customAlias := none }
        (some "u1") 10000 ["qqq111"] st5Fix = some (.quotaExceeded, st5Fix) := by
  refine ⟨by decide, ?_⟩
  exact (C4_quota_window_gates_creation st5Fix "u1" 10000
    { originalUrl := "https://example.com/y", customAlias := none } ["qqq111"]
    (by decide)).1 (by decide)

/-- C10: every record persisted by a successful create receives an expiry
of exactly five days after the creation instant; the expiry is never absent
and never the one-year model default. -/
theorem C10_created_links_expire_in_five_days (req : CreateReq) (user : Option String)
    (now : Int) (stream : List String) (st : List LinkRec) (code : String)
    (st' : List LinkRec)
    (h : createShortLink req user now stream st = some (.created code, st')) :
    ∃ rec : LinkRec, st' = st ++ [rec] ∧ rec.createdAt = now ∧
      rec.expiresAt = some (now + FIVE_DAYS_MS) ∧ FIVE_DAYS_MS = 432000000 ∧
      rec.expiresAt ≠ none ∧ rec.expiresAt ≠ some (now + YEAR_MS) := by
  have hne : (some (now + FIVE_DAYS_MS) : Option Int) ≠ some (now + YEAR_MS) := by
    intro hcon
    simp only [Option.some.injEq] at hcon
    simp only [FIVE_DAYS_MS, YEAR_MS] at hcon
    omega
  unfold createShortLink at h
  by_cases hs : zodOk req = true
  · rw [if_pos hs] at h
    cases user with
    | none =>
      dsimp only at h
      simp at h
    | some uid =>
      dsimp only at h
      by_cases hq : 5 ≤ quotaCount st uid now
      · rw [if_pos hq] at h
        simp at h
      · rw [if_neg hq] at h
        cases hca : req.customAlias with
        | none =>
          rw [hca] at h
          dsimp only at h
          have hst := createAfterAliasChecks_created none uid now stream st _ code st' h
          exact ⟨_, hst, rfl, rfl, by decide, by simp, hne⟩
        | some a =>
          rw [hca] at h
          dsimp only at h
          by_cases hres : isReserved a = true
          · rw [if_pos hres] at h
            simp at h
          · rw [if_neg hres] at h
            by_cases hex : existsCode st a = true
            · rw [if_pos hex] at h
              simp at h
            · rw [if_neg hex] at h
              have hst := createAfterAliasChecks_created (some a) uid now stream st _ code st' h
              exact ⟨_, hst, rfl, rfl, by decide, by simp, hne⟩
  · rw [if_neg hs] at h
    simp at h

/-- Witness for C10: creating a link at time zero stores expiry 432000000,
five days later. -/
theorem C10_created_links_expire_in_five_days_witness :
    ∃ rec : LinkRec, [recC10] = [] ++ [rec] ∧ rec.createdAt = 0 ∧
      rec.expiresAt = some (0 + FIVE_DAYS_MS) ∧ FIVE_DAYS_MS = 432000000 ∧
      rec.expiresAt ≠ none ∧ rec.expiresAt ≠ some (0 + YEAR_MS) :=
  C10_created_links_expire_in_five_days
    { originalUrl := "https://example.com/x", customAlias := none }
    (some "u1") 0 ["abc123"] [] "abc123" [recC10] (by decide)

/-- C2: evaluation of the duplicate-collapsing bug.  Creator u1 already owns
a record whose originalUrl is exactly the normalization of the submitted
URL, the record is active and quota admits, yet the unescaped
case-insensitive regex built from a URL containing a question mark fails to
match the stored identical URL, so the controller persists a second record
with a fresh code instead of returning the existing one. -/
theorem C2_identical_query_url_not_collapsed :
    recQuery.createdBy = "u1" ∧ recQuery.isActive = true ∧
    recQuery.originalUrl = normalizeUrl "https://example.com/a?b=1" ∧
    dedupMatch (normalizeUrl "https://example.com/a?b=1") recQuery.originalUrl = false ∧
    createShortLink { originalUrl := "https://example.com/a?b=1", customAlias := none }
        (some "u1") 1000 ["zzz999"] [recQuery]
      = some (.created "zzz999", [recQuery, recQueryDup]) := by
  decide

/-- Counterexample for C3: the generator consults only store uniqueness, so
when the randomness yields the reserved word health on an empty store the
create path assigns it as the shortCode. -/
theorem C3_generated_code_can_be_reserved_cex :
    isReserved "health" = true ∧
    createShortLink { originalUrl := "https://example.com/x", customAlias := none }
        (some "u1") 0 ["health"] []
      = some (.created "health", [recHealth]) := by
  decide

/-- C3 amended: the deny-list is enforced only on the custom-alias path;
every successful create that supplies a custom alias stores exactly that
alias and it is not reserved. -/
theorem C3_custom_alias_never_reserved (req : CreateReq) (uid : String) (now : Int)
    (stream : List String) (st : List LinkRec) (a : String) (code : String)
    (st' : List LinkRec) (ha : req.customAlias = some a)
    (h : createShortLink req (some uid) now stream st = some (.created code, st')) :
    code = a ∧ isReserved code = false := by
  unfold createShortLink at h
  by_cases hs : zodOk req = true
  · rw [if_pos hs] at h
    dsimp only at h
    by_cases hq : 5 ≤ quotaCount st uid now
    · rw [if_pos hq] at h
      simp at h
    · rw [if_neg hq] at h
      rw [ha] at h
      dsimp only at h
      by_cases hres : isReserved a = true
      · rw [if_pos hres] at h
        simp at h
      · rw [if_neg hres] at h
        by_cases hex : existsCode st a = true
        · rw [if_pos hex] at h
          simp at h
        · rw [if_neg hex] at h
          have hcode := createAfterAliasChecks_created_code a uid now stream st _ code st' h
          subst hcode
          exact ⟨rfl, Bool.not_eq_true _ |>.mp hres⟩
  · rw [if_neg hs] at h
    simp at h

/-- Witness for C3 amended: creating with the custom alias myalias stores
that alias, which is not reserved. -/
theorem C3_custom_alias_never_reserved_witness :
    "myalias" = "myalias" ∧ isReserved "myalias" = false :=
  C3_custom_alias_never_reserved
    { originalUrl := "https://example.com/x", customAlias := some "myalias" }
    "u1" 0 [] [] "myalias" "myalias"
    [{ originalUrl := "https://example.com/x", shortCode := "myalias",
       customAlias := some "myalias", clicks := 0, createdAt := 0, createdBy := "u1",
       expiresAt := some 432000000, isActive := true }]
    rfl (by decide)

/-- Counterexample for C5: on the hostless input the normalizer does not
fail with any invalid-URL error; it returns the input unchanged, and the
create path carries it past normalization into persistence, where the
model-layer validator (not the normalizer) rejects it as a thrown server
error rather than a typed invalid-URL response. -/
theorem C5_normalization_never_signals_invalid_cex :
    normalizeUrl "https://" = "https://" ∧ jsURLParse "https://" = none ∧
    createShortLink { originalUrl := "https://", customAlias := none } (some "u1") 0
        ["abc123"] [] = some (.serverError, []) := by
  decide

/-- C5 amended: normalization is total and never signals an error; whenever
the trimmed, scheme-defaulted input parses, the result is the serialization
with the fragment stripped, whose scheme is http or https and whose host is
nonempty; otherwise the input passes through unchanged to creation. -/
theorem C5_normalize_total_and_http_on_success (raw : String) (u : URLRec)
    (h : jsURLParse (schemeDefault (trimStr raw)) = some u) :
    normalizeUrl raw = serializeURL { u with fragment := none } ∧
    (u.scheme = "http" ∨ u.scheme = "https") ∧ u.host ≠ "" := by
  refine ⟨?_, (jsURLParse_ok _ u h).1, (jsURLParse_ok _ u h).2⟩
  simp only [normalizeUrl, h]

/-- Witness for C5 amended: a trimmed input with default scheme, upper-case
host letters and a fragment normalizes to the fragment-free serialization. -/
theorem C5_normalize_total_and_http_on_success_witness :
    jsURLParse (schemeDefault (trimStr "  Example.com/Path#frag  ")) = some urlFixC5 ∧
    (normalizeUrl "  Example.com/Path#frag  "
        = serializeURL { urlFixC5 with fragment := none } ∧
      (urlFixC5.scheme = "http" ∨ urlFixC5.scheme = "https") ∧ urlFixC5.host ≠ "") :=
  ⟨by decide, C5_normalize_total_and_http_on_success _ _ (by decide)⟩

/-- Counterexample for C6: two URLs of the same creator differing only in
the case of the path are collapsed by the duplicate lookup, because the
regex carries the i flag over the whole URL; the second create returns the
existing record instead of treating the URLs as distinct. -/
theorem C6_path_case_difference_collapsed_cex :
    recUpperPath.createdBy = "u1" ∧
    recUpperPath.originalUrl = "https://example.com/A" ∧
    normalizeUrl "example.com/a" = "https://example.com/a" ∧
    createShortLink { originalUrl := "example.com/a", customAlias := none } (some "u1")
        1000 ["fresh1"] [recUpperPath]
      = some (.existing "c1" 0, [recUpperPath]) := by
  decide

/-- C6 amended: the duplicate relation is the anchored case-insensitive
match of the unescaped normalized URL; on metacharacter-free URLs it is
exactly case-insensitive equality of the entire URL, path and query
included, never the case-sensitive comparison the spec describes. -/
theorem C6_dedup_is_ci_equality_on_plain_urls (p s : String)
    (hp : p.data.all plainChar = true) :
    dedupMatch p s = true ↔ lowerStr p = lowerStr s := by
  unfold dedupMatch
  rw [tokenize_plain p.data hp]
  rw [matchToks_lits p.data s.data]
  unfold lowerStr
  constructor
  · intro h
    exact congrArg String.mk h
  · intro h
    have := congrArg String.data h
    simpa using this

/-- Witness for C6 amended: a dot-free pattern matches its upper-cased
subject, as the lower-casings agree. -/
theorem C6_dedup_is_ci_equality_on_plain_urls_witness :
    "https://localhost/x".data.all plainChar = true ∧
    dedupMatch "https://localhost/x" "HTTPS://LOCALHOST/X" = true :=
  ⟨by decide,
    (C6_dedup_is_ci_equality_on_plain_urls "https://localhost/x" "HTTPS://LOCALHOST/X"
      (by decide)).mpr (by decide)⟩

/-- When the first candidate is taken, generation uses one more attempt than
the run on the remaining stream. -/
theorem genAttempts_replicate_taken (m : Nat) (c : String) (rest : List String)
    (st : List LinkRec) (hc : existsCode st c = true) :
    genAttempts (List.replicate m c ++ rest) st = (genAttempts rest st).map (· + m) := by
  induction m with
  | zero =>
    simp only [List.replicate_zero, List.nil_append]
    cases genAttempts rest st <;> simp
  | succ m ih =>
    have hstep : ∀ l : List String, genAttempts (c :: l) st
        = if existsCode st c = true then (genAttempts l st).map (· + 1) else some 1 :=
      fun l => rfl
    rw [List.replicate_succ, List.cons_append, hstep, if_pos hc, ih]
    cases genAttempts rest st with
    | none => rfl
    | some k =>
      show some (k + m + 1) = some (k + (m + 1))
      exact congrArg some (by omega)

/-- Counterexample for C7: the retry loop admits no uniform bound on its
attempts.  For every proposed bound there is a store and a randomness
stream on which the loop runs strictly more iterations and still returns a
code, never a code-space-exhausted error, because the source loop is while
true with no attempt counter. -/
theorem C7_generation_retry_unbounded_cex :
    ¬ ∃ N : Nat, ∀ (stream : List String) (st : List LinkRec) (k : Nat),
        genAttempts stream st = some k → k ≤ N := by
  rintro ⟨N, hN⟩
  have htaken : existsCode [recTaken] "aa" = true := by decide
  have hbb : genAttempts ["bb"] [recTaken] = some 1 := by decide
  have hrun : genAttempts (List.replicate (N + 1) "aa" ++ ["bb"]) [recTaken]
      = some (1 + (N + 1)) := by
    rw [genAttempts_replicate_taken (N + 1) "aa" ["bb"] [recTaken] htaken, hbb]
    rfl
  have := hN _ _ _ hrun
  omega

/-- C7 amended: generation is an unbounded search of the randomness for a
code absent from the store: it returns the first free candidate, and it
fails to return at all (the model none, the source infinite loop) exactly
when every candidate the randomness offers is already taken; no attempt cap
and no code-space-exhausted error exist. -/
theorem C7_generator_returns_first_free (stream : List String) (st : List LinkRec) :
    (generateUniqueShortCode stream st = none ↔ ∀ c ∈ stream, existsCode st c = true)
    ∧ ∀ c : String, generateUniqueShortCode stream st = some c →
        existsCode st c = false ∧ c ∈ stream := by
  induction stream with
  | nil => simp [generateUniqueShortCode]
  | cons d rest ih =>
    by_cases hd : existsCode st d = true
    · constructor
      · unfold generateUniqueShortCode
        rw [if_pos hd, ih.1]
        constructor
        · intro h c hc
          rcases List.mem_cons.mp hc with rfl | hc
          · exact hd
          · exact h c hc
        · intro h c hc
          exact h c (List.mem_cons_of_mem d hc)
      · intro c hc
        unfold generateUniqueShortCode at hc
        rw [if_pos hd] at hc
        rcases ih.2 c hc with ⟨h1, h2⟩
        exact ⟨h1, List.mem_cons_of_mem d h2⟩
    · constructor
      · unfold generateUniqueShortCode
        rw [if_neg hd]
        constructor
        · intro h
          exact Option.noConfusion h
        · intro h
          exact absurd (h d (List.mem_cons_self d rest)) (by simp [hd])
      · intro c hc
        unfold generateUniqueShortCode at hc
        rw [if_neg hd] at hc
        simp only [Option.some.injEq] at hc
        subst hc
        exact ⟨Bool.not_eq_true _ |>.mp hd, List.mem_cons_self d rest⟩

/-- Witness for C7 amended: with aa taken, the generator skips it and
returns the free code bb, which is indeed absent from the store. -/
theorem C7_generator_returns_first_free_witness :
    generateUniqueShortCode ["aa", "bb"] [recTaken] = some "bb" ∧
    existsCode [recTaken] "bb" = false ∧ "bb" ∈ ["aa", "bb"] :=
  ⟨by decide, (C7_generator_returns_first_free ["aa", "bb"] [recTaken]).2 "bb" (by decide)⟩

/-- Counterexample for C8: the same active, unexpired link that redirects
when the click save succeeds yields a propagated server error, not the
destination, when the click save fails: the counting failure is not
swallowed. -/
theorem C8_click_save_failure_fails_redirect_cex :
    redirectToOriginalUrl "abc" 20 true [recLive]
      = (ResolveResult.redirect "https://example.com/x", [{ recLive with clicks := 1 }]) ∧
    redirectToOriginalUrl "abc" 20 false [recLive]
      = (ResolveResult.serverError, [recLive]) := by
  decide

/-- C8 amended: whenever fault-free resolution of a code would redirect, a
failing click save on the same state propagates as a server error, the
redirect is not issued and the click increment is not persisted. -/
theorem C8_save_failure_propagates (st : List LinkRec) (code : String) (now : Int)
    (u : String) (st' : List LinkRec)
    (h : redirectToOriginalUrl code now true st = (ResolveResult.redirect u, st')) :
    redirectToOriginalUrl code now false st = (ResolveResult.serverError, st) := by
  cases hfind : st.find? (fun r => r.shortCode == code && r.isActive) with
  | none =>
    simp only [redirectToOriginalUrl, hfind] at h
    exact absurd (congrArg Prod.fst h) (by simp)
  | some link =>
    simp only [redirectToOriginalUrl, hfind] at h ⊢
    by_cases he : pastExpiry link.expiresAt now = true
    · rw [if_pos he] at h
      exact absurd (congrArg Prod.fst h) (by simp)
    · rw [if_neg he] at h ⊢
      simp

/-- Witness for C8 amended: the live fixture redirects under a successful
save, so with a failing save it returns the server error unchanged. -/
theorem C8_save_failure_propagates_witness :
    redirectToOriginalUrl "abc" 20 false [recLive] = (ResolveResult.serverError, [recLive]) :=
  C8_save_failure_propagates [recLive] "abc" 20 "https://example.com/x"
    [{ recLive with clicks := 1 }] (by decide)

/-- Counterexample for C9: deleting an existing code owned by another
creator and deleting a nonexistent code produce the same not-found outcome
with the store untouched; no distinct not-owner error exists. -/
theorem C9_notowner_equals_notfound_cex :
    recAlice.createdBy = "alice" ∧ recAlice.shortCode = "abc" ∧
    deleteLink (some "bob") "abc" [recAlice] = (DeleteResult.notFound, [recAlice]) ∧
    deleteLink (some "bob") "zzz" [recAlice] = (DeleteResult.notFound, [recAlice]) ∧
    deleteLink (some "bob") "abc" [recAlice] = deleteLink (some "bob") "zzz" [recAlice] := by
  decide

/-- C9 amended: whenever no record carries both the requested code and the
requesting creator (whether the code belongs to someone else or does not
exist at all), deletion returns the single not-found outcome and the store
is unchanged. -/
theorem C9_delete_miss_is_notFound (st : List LinkRec) (uid : String) (code : String)
    (h : ∀ r ∈ st, ¬(r.shortCode = code ∧ r.createdBy = uid)) :
    deleteLink (some uid) code st = (DeleteResult.notFound, st) := by
  have hfind : st.find? (fun r => r.shortCode == code && r.createdBy == uid) = none := by
    rw [List.find?_eq_none]
    intro r hr
    have hnot := h r hr
    simp only [Bool.and_eq_true, beq_iff_eq]
    intro hcon
    exact hnot ⟨hcon.1, hcon.2⟩
  simp [deleteLink, hfind]

/-- Witness for C9 amended: bob deleting the code owned by alice hits the
not-found outcome with the store untouched. -/
theorem C9_delete_miss_is_notFound_witness :
    deleteLink (some "bob") "abc" [recAlice] = (DeleteResult.notFound, [recAlice]) :=
  C9_delete_miss_is_notFound [recAlice] "bob" "abc" (by decide)
